import Mathlib

/-!
Verification of the matching/scoring engine of the Student-Copilot repository.

The definitions below are a shallow embedding of `server/storage.ts` (the
`SupabaseStorage` class and its deterministic `MemStorage` fallback) over the
data model of `shared/schema.ts`.  JavaScript features are modelled as follows:

* `Array.prototype.sort(cmp)` is a stable sort by the comparator (ECMAScript
  2019); we model it with `List.insertionSort` on the relation `cmp a b ≤ 0`.
* `new Set(l)` keeps first occurrences in insertion order; `Set.has` is exact
  string membership; `Array.from` of such a set is first-occurrence dedup.
* `Math.random()` is modelled by an injected oracle (`Rand`): the random
  comparator of the shuffle branch becomes an arbitrary comparator function
  (insertion sort compares each pair at most once, so every sequence of draws
  is realised by some comparator), and the per-call proficiency draws become a
  stream indexed by call position.
* nullable `jsonb` array columns become `Option (List String)`; the code's
  `x || []` becomes `Option.getD x []`.
-/

namespace StudentCopilot

/-! ## Data model, from `shared/schema.ts` -/

/-- A row of the `students` table.  `skills` and `interests` are nullable
jsonb arrays. -/
structure Student where
  id : String
  name : String
  email : String
  year : Int
  skills : Option (List String)
  interests : Option (List String)
deriving DecidableEq, Repr

/-- A row of the `internships` table; `requiredSkills` is a nullable jsonb
array. -/
structure Internship where
  id : String
  title : String
  company : String
  location : String
  stipend : String
  duration : String
  requiredSkills : Option (List String)
  description : String
deriving DecidableEq, Repr

/-- A row of the `projects` table; `technologies` and `features` are nullable
jsonb arrays. -/
structure Project where
  id : String
  title : String
  description : String
  difficulty : String
  duration : String
  technologies : Option (List String)
  features : Option (List String)
deriving DecidableEq, Repr

/-- `Internship & \x7b matchScore \x7d` from `shared/schema.ts`. -/
structure InternshipWithMatch where
  internship : Internship
  matchScore : Nat
deriving DecidableEq, Repr

/-- The JS object `\x7b ...project, score \x7d` returned by
`getRecommendedProjects`; the `score` property is present only on the scored
branch, hence the `Option`. -/
structure RecommendedProject where
  proj : Project
  score : Option Nat
deriving DecidableEq, Repr

/-- Entry of `SkillGapAnalysis.currentSkills`. -/
structure SkillEntry where
  name : String
  level : String
  proficiency : Nat
deriving DecidableEq, Repr

/-- Entry of `SkillGapAnalysis.missingSkills`. -/
structure MissingSkillEntry where
  name : String
  priority : String
  timeToLearn : String
deriving DecidableEq, Repr

/-- A week of the learning plan. -/
structure WeekUnit where
  title : String
  focus : String
  tasks : List String
deriving DecidableEq, Repr

/-- The `SkillGapAnalysis` result type of `shared/schema.ts`. -/
structure SkillGapAnalysis where
  targetRole : String
  currentSkills : List SkillEntry
  missingSkills : List MissingSkillEntry
  learningPlanWeeks : List WeekUnit
deriving DecidableEq, Repr

/-! ## JavaScript primitives -/

/-- `Set.has` on a JS `Set` built from the list `l`: exact, case-sensitive
string membership. -/
def hasStr (l : List String) (x : String) : Bool :=
  l.contains x

/-- Worker for `jsSetList`: keep the elements not already seen, tracking the
seen ones. -/
def jsSetListAux (seen : List String) : List String → List String
  | [] => []
  | x :: xs =>
      if seen.contains x then jsSetListAux seen xs
      else x :: jsSetListAux (x :: seen) xs

/-- `Array.from(new Set(l))`: first occurrences of `l`, in insertion order. -/
def jsSetList (l : List String) : List String :=
  jsSetListAux [] l

/-- `Array.prototype.sort(cmp)` (stable, ECMAScript 2019), modelled as a
stable insertion sort on the relation `cmp a b ≤ 0`. -/
def jsSortBy (cmp : α → α → Int) (l : List α) : List α :=
  List.insertionSort (fun a b => cmp a b ≤ 0) l

/-- The comparator `(a, b) => f(b) - f(a)` used to sort descending by a
numeric score. -/
def scoreCmp (f : α → Nat) (a b : α) : Int :=
  (f b : Int) - (f a : Int)

theorem hasStr_iff {l : List String} {x : String} : hasStr l x = true ↔ x ∈ l := by
  simp [hasStr]

theorem mem_jsSetListAux {x : String} :
    ∀ (l seen : List String), x ∈ jsSetListAux seen l ↔ x ∈ l ∧ x ∉ seen := by
  intro l
  induction l with
  | nil => intro seen; simp [jsSetListAux]
  | cons y xs ih =>
    intro seen
    by_cases hy : seen.contains y
    · have hy2 : y ∈ seen := by simpa using hy
      rw [jsSetListAux, if_pos hy, ih]
      constructor
      · rintro ⟨hx, hns⟩
        exact ⟨List.mem_cons_of_mem y hx, hns⟩
      · rintro ⟨hx, hns⟩
        rcases List.mem_cons.mp hx with rfl | hx
        · exact absurd hy2 hns
        · exact ⟨hx, hns⟩
    · have hy2 : y ∉ seen := by simpa using hy
      rw [jsSetListAux, if_neg hy]
      by_cases hxy : x = y
      · subst hxy
        simp [hy2]
      · simp only [List.mem_cons, hxy, false_or, ih, List.mem_cons]

theorem mem_jsSetList {x : String} {l : List String} : x ∈ jsSetList l ↔ x ∈ l := by
  rw [jsSetList, mem_jsSetListAux]
  simp

/-! ### Generic facts about the sort -/

theorem jsSortBy_perm (cmp : α → α → Int) (l : List α) : (jsSortBy cmp l).Perm l :=
  List.perm_insertionSort _ l

theorem jsSortBy_scoreCmp_sorted (f : α → Nat) (l : List α) :
    (jsSortBy (scoreCmp f) l).Pairwise (fun a b => f b ≤ f a) := by
  haveI htot : IsTotal α (fun a b => scoreCmp f a b ≤ 0) := by
    constructor
    intro a b
    simp only [scoreCmp]
    omega
  haveI htr : IsTrans α (fun a b => scoreCmp f a b ≤ 0) := by
    constructor
    intro a b c h1 h2
    simp only [scoreCmp] at h1 h2 ⊢
    omega
  have h := List.sorted_insertionSort (fun a b => scoreCmp f a b ≤ 0) l
  exact h.imp (by intro a b hab; simp only [scoreCmp] at hab; omega)

theorem filter_orderedInsert_of_neg (r : α → α → Prop) [DecidableRel r]
    (p : α → Bool) (x : α) (hx : p x = false) :
    ∀ l : List α, (List.orderedInsert r x l).filter p = l.filter p := by
  intro l
  induction l with
  | nil => simp [hx]
  | cons y l ih =>
    by_cases h : r x y
    · simp [List.orderedInsert, h, hx]
    · simp only [List.orderedInsert, if_neg h, List.filter_cons, ih]

theorem filter_orderedInsert_of_pos (r : α → α → Prop) [DecidableRel r]
    (p : α → Bool) (x : α) (hx : p x = true)
    (hcomp : ∀ y, ¬ r x y → p y = false) :
    ∀ l : List α, (List.orderedInsert r x l).filter p = x :: l.filter p := by
  intro l
  induction l with
  | nil => simp [hx]
  | cons y l ih =>
    by_cases h : r x y
    · simp [List.orderedInsert, h, hx]
    · simp [List.orderedInsert, if_neg h, List.filter_cons, hcomp y h, ih]

/-- Stability of the JS sort with a score comparator: the sub-sequence of any
fixed score is unchanged. -/
theorem jsSortBy_scoreCmp_filter (f : α → Nat) (s : Nat) (l : List α) :
    (jsSortBy (scoreCmp f) l).filter (fun a => f a == s)
      = l.filter (fun a => f a == s) := by
  induction l with
  | nil => rfl
  | cons x l ih =>
    show (List.orderedInsert _ x (List.insertionSort _ l)).filter _ = _
    by_cases hx : f x = s
    · rw [filter_orderedInsert_of_pos _ _ x (by simp [hx])
        (by
          intro y hy
          simp only [not_le] at hy
          simp only [scoreCmp] at hy
          have : s < f y := by omega
          simp
          omega)]
      rw [List.filter_cons_of_pos (by simp [hx])]
      exact congrArg _ ih
    · rw [filter_orderedInsert_of_neg _ _ x (by simp [hx])]
      rw [List.filter_cons_of_neg (by simp [hx])]
      exact ih

/-! ## Storage state and randomness oracle -/

/-- The collections backing `IStorage` (rows of the three tables); the student
map/table is modelled as a list searched by id. -/
structure StorageState where
  students : List Student
  internships : List Internship
  projects : List Project

/-- The ambient `Math.random` source, injected.  `cmpP` models the draws of
the random comparator in the project-shuffle branch (insertion sort compares
each pair at most once, so a comparator function captures every draw
sequence); `prof` models the successive draws for proficiency values, indexed
by call position and taken `mod 40`. -/
structure Rand where
  cmpP : Project → Project → Int
  prof : Nat → Nat

/-- `getStudent(id)`: look the student up by exact id. -/
def getStudent (st : StorageState) (sid : String) : Option Student :=
  st.students.find? (fun s => s.id == sid)

/-! ## Internship matcher, from `SupabaseStorage.findInternships`
(`MemStorage.findInternships` in current `storage.ts` is the identical
algorithm). -/

/-- The per-internship score: how many `requiredSkills` entries are members of
the set built from the student's skills (`requiredSkills || []` for a missing
field). -/
def internshipMatchScore (studentSkills : List String) (internship : Internship) : Nat :=
  ((internship.requiredSkills.getD []).filter (fun skill => hasStr studentSkills skill)).length

/-- The `allInternships.map(...)` stage: annotate each catalog internship with
its match score. -/
def scoredInternships (student : Student) (catalog : List Internship) : List InternshipWithMatch :=
  catalog.map (fun internship =>
    { internship := internship
      matchScore := internshipMatchScore (student.skills.getD []) internship })

/-- `findInternships(studentId)`: unknown student gives `[]`; otherwise score
every catalog internship, keep the strictly positive scores, and sort by
`(a, b) => b.matchScore - a.matchScore`.  The `Rand` argument is the ambient
randomness, which this operation never reads. -/
def findInternships (r : Rand) (st : StorageState) (studentId : String) :
    List InternshipWithMatch :=
  match getStudent st studentId with
  | none => []
  | some student =>
      jsSortBy (scoreCmp InternshipWithMatch.matchScore)
        ((scoredInternships student st.internships).filter
          (fun iw => decide (0 < iw.matchScore)))

/-! ## Project recommender, from `SupabaseStorage.getRecommendedProjects`
(`MemStorage.getRecommendedProjects` in current `storage.ts` is the identical
algorithm). -/

/-- The per-project score: how many `technologies` entries are members of the
set built from the student's skills. -/
def projectScore (studentSkills : List String) (p : Project) : Nat :=
  ((p.technologies.getD []).filter (fun tech => hasStr studentSkills tech)).length

/-- The `allProjects.map(...)` stage: annotate each project with its score. -/
def scoredProjects (studentSkills : List String) (catalog : List Project) :
    List RecommendedProject :=
  catalog.map (fun p => { proj := p, score := some (projectScore studentSkills p) })

/-- `getRecommendedProjects(studentId)`: unknown student or empty skill list
gives the catalog shuffled by `sort(() => Math.random() - 0.5)`; otherwise
score every project and sort by `(a, b) => b.score - a.score` (no
filtering). -/
def getRecommendedProjects (r : Rand) (st : StorageState) (studentId : String) :
    List RecommendedProject :=
  match getStudent st studentId with
  | none => (jsSortBy r.cmpP st.projects).map (fun p => { proj := p, score := none })
  | some student =>
      if (student.skills.getD []).isEmpty then
        (jsSortBy r.cmpP st.projects).map (fun p => { proj := p, score := none })
      else
        jsSortBy (scoreCmp (fun rp => rp.score.getD 0))
          (scoredProjects (student.skills.getD []) st.projects)

/-! ## Skill gap analyzer -/

/-- The `roleSkillMaps` table of `SupabaseStorage.analyzeSkillGap`. -/
def supabaseRoleSkillMaps : List (String × List String) :=
  [("Full-Stack Developer",
    ["React", "Node.js", "MongoDB", "JavaScript", "CSS", "HTML", "APIs", "Docker", "Git",
     "TypeScript"]),
   ("Frontend Developer",
    ["React", "JavaScript", "CSS", "HTML", "TypeScript", "Redux", "Next.js", "Tailwind CSS"]),
   ("Backend Developer",
    ["Node.js", "Python", "Java", "SQL", "MongoDB", "APIs", "Docker", "AWS", "Express"]),
   ("Data Scientist",
    ["Python", "Machine Learning", "Statistics", "SQL", "Pandas", "TensorFlow", "Scikit-learn",
     "Jupyter"]),
   ("DevOps Engineer",
    ["Docker", "Kubernetes", "AWS", "CI/CD", "Linux", "Jenkins", "Terraform", "Ansible"]),
   ("Mobile Developer",
    ["React Native", "Flutter", "Swift", "Kotlin", "Firebase", "Mobile UI/UX"]),
   ("UI/UX Designer",
    ["Figma", "Adobe XD", "Sketch", "Prototyping", "User Research", "Design Systems"]),
   ("Product Manager",
    ["Product Strategy", "User Research", "Data Analysis", "Agile", "JIRA", "SQL"])]

/-- The `roleSkillMaps` table of the current `MemStorage.analyzeSkillGap`. -/
def memRoleSkillMaps : List (String × List String) :=
  [("Full-Stack Developer", ["React", "Node.js", "MongoDB", "JavaScript", "CSS", "APIs", "Docker"]),
   ("Data Scientist", ["Python", "Machine Learning", "Statistics", "SQL", "Pandas", "TensorFlow"]),
   ("DevOps Engineer", ["Docker", "Kubernetes", "AWS", "CI/CD", "Linux"])]

/-- `roleSkillMaps[targetRole] || roleSkillMaps["Full-Stack Developer"]`. -/
def requiredSkillsFor (table : List (String × List String)) (targetRole : String) : List String :=
  (table.lookup targetRole).getD ((table.lookup "Full-Stack Developer").getD [])

/-- `Array.from(studentSkills).filter(skill => requiredSkills.has(skill))`. -/
def currentSkillNames (studentSkills required : List String) : List String :=
  (jsSetList studentSkills).filter (fun skill => hasStr required skill)

/-- `Array.from(requiredSkills).filter(skill => !studentSkills.has(skill))`. -/
def missingSkillNames (studentSkills required : List String) : List String :=
  (jsSetList required).filter (fun skill => !(hasStr studentSkills skill))

/-- The `currentSkills.map((skill, index) => ...)` stage of the Supabase
analyzer: level "Intermediate" and a proficiency of
`Math.floor(Math.random() * 40) + 60`, one draw per entry. -/
def buildCurrentEntries (prof : Nat → Nat) : Nat → List String → List SkillEntry
  | _, [] => []
  | k, skill :: rest =>
      { name := skill, level := "Intermediate", proficiency := prof k % 40 + 60 }
        :: buildCurrentEntries prof (k + 1) rest

/-- The `missingSkills.slice(0, 4).map((skill, index) => ...)` stage of the
Supabase analyzer's learning plan. -/
def buildPlanWeeks : Nat → List String → List WeekUnit
  | _, [] => []
  | index, skill :: rest =>
      { title := "Week " ++ toString (index + 1) ++ "-" ++ toString (index + 2) ++ ": " ++ skill
        focus := skill
        tasks := ["Learn fundamentals of " ++ skill,
                  "Complete " ++ skill ++ " tutorials and exercises",
                  "Build a small project using " ++ skill,
                  "Practice " ++ skill ++ " concepts daily"] }
        :: buildPlanWeeks (index + 1) rest

/-- `analyzeSkillGap(studentId, targetRole)` of `SupabaseStorage`: throws
"Student not found" for an unknown id, otherwise partitions the role's
required skills against the student's skill set and builds the report. -/
def analyzeSkillGap (r : Rand) (st : StorageState) (studentId targetRole : String) :
    Except String SkillGapAnalysis :=
  match getStudent st studentId with
  | none => Except.error "Student not found"
  | some student =>
      let studentSkills := student.skills.getD []
      let required := requiredSkillsFor supabaseRoleSkillMaps targetRole
      let current := currentSkillNames studentSkills required
      let missing := missingSkillNames studentSkills required
      Except.ok
        { targetRole := targetRole
          currentSkills := buildCurrentEntries r.prof 0 current
          missingSkills := missing.map (fun skill =>
            { name := skill
              priority := if missing.indexOf skill < 3 then "High" else "Medium"
              timeToLearn := "2-4 weeks" })
          learningPlanWeeks := buildPlanWeeks 0 (missing.take 4) }

/-- JS `a || b` where `a` is a possibly-undefined string: `undefined` and the
empty string are falsy. -/
def jsOrStr (a : Option String) (b : String) : String :=
  match a with
  | none => b
  | some s => if s = "" then b else s

/-- JS template interpolation of a possibly-undefined array element. -/
def jsIdx (l : List String) (i : Nat) : String :=
  (l.get? i).getD "undefined"

/-- `analyzeSkillGap(studentId, targetRole)` of the current `MemStorage`
fallback: same partition against its three-role table, fixed proficiency 60,
priority "High", and a fixed two-week plan naming the first two missing
skills. -/
def memAnalyzeSkillGap (st : StorageState) (studentId targetRole : String) :
    Except String SkillGapAnalysis :=
  match getStudent st studentId with
  | none => Except.error "Student not found"
  | some student =>
      let studentSkills := student.skills.getD []
      let required := requiredSkillsFor memRoleSkillMaps targetRole
      let current := currentSkillNames studentSkills required
      let missing := missingSkillNames studentSkills required
      Except.ok
        { targetRole := targetRole
          currentSkills := current.map (fun skill =>
            { name := skill, level := "Intermediate", proficiency := 60 })
          missingSkills := missing.map (fun skill =>
            { name := skill, priority := "High", timeToLearn := "2-4 weeks" })
          learningPlanWeeks :=
            [{ title := "Week 1-2: Core Concepts"
               focus := jsOrStr (missing.get? 0) "Key Skill 1"
               tasks := ["Learn basics of " ++ jsIdx missing 0,
                         "Build a small project with " ++ jsIdx missing 0] },
             { title := "Week 3-4: Advanced Topics"
               focus := jsOrStr (missing.get? 1) "Key Skill 2"
               tasks := ["Deep dive into " ++ jsIdx missing 1,
                         "Integrate " ++ jsIdx missing 1 ++ " with other tech"] }] }

/-! ## Concrete fixtures -/

/-- A randomness oracle fixed to zero draws. -/
def rand0 : Rand := { cmpP := fun _ _ => 0, prof := fun _ => 0 }

/-- The student of the spec's concrete internship scenario. -/
def demoStudent : Student :=
  { id := "stu-1", name := "Asha", email := "asha@example.com", year := 3,
    skills := some ["React", "JavaScript"], interests := some ["Web Development"] }

/-- Internship requiring React, JavaScript, CSS and HTML. -/
def demoFrontend : Internship :=
  { id := "i-1", title := "Frontend Developer Intern", company := "TechCorp Solutions",
    location := "Remote", stipend := "15000", duration := "3-6 months",
    requiredSkills := some ["React", "JavaScript", "CSS", "HTML"],
    description := "Build modern web applications using React and JavaScript" }

/-- Internship requiring Node.js and MongoDB. -/
def demoBackend : Internship :=
  { id := "i-2", title := "Backend Developer", company := "StartupXYZ",
    location := "Remote", stipend := "20000", duration := "4-6 months",
    requiredSkills := some ["Node.js", "MongoDB"],
    description := "Develop scalable backend services and APIs" }

/-- Storage fixture for the internship scenarios. -/
def demoState : StorageState :=
  { students := [demoStudent], internships := [demoFrontend, demoBackend], projects := [] }

/-! ## Claims -/

theorem hasStr_eq_decide (l : List String) (x : String) : hasStr l x = decide (x ∈ l) := by
  by_cases h : x ∈ l <;> simp [hasStr, h]

theorem findInternships_eq (r : Rand) (st : StorageState) (sid : String) (student : Student)
    (h : getStudent st sid = some student) :
    findInternships r st sid
      = jsSortBy (scoreCmp InternshipWithMatch.matchScore)
          ((scoredInternships student st.internships).filter
            (fun iw => decide (0 < iw.matchScore))) := by
  simp [findInternships, h]

/-- C1: for every student profile and internship catalog, `findInternships`
returns exactly the internships with strictly positive match score, sorted
non-increasingly by `matchScore`, and equal scores keep the catalog's
relative order (stable sort). -/
theorem findInternships_positive_sorted_stable
    (r : Rand) (st : StorageState) (sid : String) (student : Student)
    (h : getStudent st sid = some student) :
    (findInternships r st sid).Perm
        ((scoredInternships student st.internships).filter (fun iw => decide (0 < iw.matchScore)))
    ∧ (findInternships r st sid).Pairwise (fun a b => b.matchScore ≤ a.matchScore)
    ∧ (∀ s : Nat,
        (findInternships r st sid).filter (fun iw => iw.matchScore == s)
          = ((scoredInternships student st.internships).filter
              (fun iw => decide (0 < iw.matchScore))).filter (fun iw => iw.matchScore == s)) := by
  rw [findInternships_eq r st sid student h]
  refine ⟨jsSortBy_perm _ _, jsSortBy_scoreCmp_sorted _ _, fun s => jsSortBy_scoreCmp_filter _ s _⟩

theorem findInternships_positive_sorted_stable_witness :
    getStudent demoState "stu-1" = some demoStudent
    ∧ ((findInternships rand0 demoState "stu-1").Perm
        ((scoredInternships demoStudent demoState.internships).filter
          (fun iw => decide (0 < iw.matchScore)))
      ∧ (findInternships rand0 demoState "stu-1").Pairwise (fun a b => b.matchScore ≤ a.matchScore)
      ∧ (∀ s : Nat,
          (findInternships rand0 demoState "stu-1").filter (fun iw => iw.matchScore == s)
            = ((scoredInternships demoStudent demoState.internships).filter
                (fun iw => decide (0 < iw.matchScore))).filter (fun iw => iw.matchScore == s))) :=
  ⟨by decide,
   findInternships_positive_sorted_stable rand0 demoState "stu-1" demoStudent (by decide)⟩

/-- C2: the `matchScore` assigned by `findInternships` counts the
`requiredSkills` entries that are members of the student's skill set under
exact case-sensitive equality; an absent `requiredSkills` field scores 0; and
on the spec's concrete scenario the student with skills React and JavaScript
gets exactly the four-skill internship back with score 2, the Node.js/MongoDB
one being excluded. -/
theorem matchScore_counts_exact_skill_matches
    (r : Rand) (st : StorageState) (sid : String) (student : Student)
    (h : getStudent st sid = some student) :
    (∀ iw ∈ findInternships r st sid,
        iw.matchScore
          = (iw.internship.requiredSkills.getD []).countP
              (fun skill => decide (skill ∈ student.skills.getD [])))
    ∧ (∀ i : Internship, i.requiredSkills = none →
        internshipMatchScore (student.skills.getD []) i = 0)
    ∧ findInternships rand0 demoState "stu-1"
        = [{ internship := demoFrontend, matchScore := 2 }] := by
  refine ⟨?_, ?_, by decide⟩
  · intro iw hmem
    rw [findInternships_eq r st sid student h] at hmem
    have h1 := ((jsSortBy_perm _ _).mem_iff).mp hmem
    have h2 := (List.mem_filter.mp h1).1
    obtain ⟨i, hi, rfl⟩ := List.mem_map.mp h2
    show internshipMatchScore (student.skills.getD []) i = _
    rw [internshipMatchScore, List.countP_eq_length_filter]
    congr 1
    apply List.filter_congr
    intro sk _
    exact hasStr_eq_decide _ sk
  · intro i hnone
    simp [internshipMatchScore, hnone]

theorem matchScore_counts_exact_skill_matches_witness :
    getStudent demoState "stu-1" = some demoStudent
    ∧ ((∀ iw ∈ findInternships rand0 demoState "stu-1",
        iw.matchScore
          = (iw.internship.requiredSkills.getD []).countP
              (fun skill => decide (skill ∈ demoStudent.skills.getD [])))
      ∧ (∀ i : Internship, i.requiredSkills = none →
          internshipMatchScore (demoStudent.skills.getD []) i = 0)
      ∧ findInternships rand0 demoState "stu-1"
          = [{ internship := demoFrontend, matchScore := 2 }]) :=
  ⟨by decide,
   matchScore_counts_exact_skill_matches rand0 demoState "stu-1" demoStudent (by decide)⟩

/-- A student with an empty skill list. -/
def emptyStudent : Student :=
  { id := "stu-0", name := "Noor", email := "noor@example.com", year := 1,
    skills := some [], interests := some [] }

/-- The student of the spec's concrete DevOps scenario. -/
def linuxStudent : Student :=
  { id := "stu-2", name := "Dev", email := "dev@example.com", year := 2,
    skills := some ["Linux"], interests := some [] }

/-- Storage fixture for the DevOps skill-gap scenario. -/
def linuxState : StorageState :=
  { students := [linuxStudent], internships := [], projects := [] }

/-- Project using React, Node.js, MongoDB and Chart.js. -/
def demoDashboard : Project :=
  { id := "p-1", title := "E-Commerce Dashboard",
    description := "Admin dashboard for an e-commerce platform",
    difficulty := "Intermediate", duration := "2-3 weeks",
    technologies := some ["React", "Node.js", "MongoDB", "Chart.js"],
    features := some ["Real-time sales analytics"] }

/-- Project using Python, TensorFlow, NLP and Flask. -/
def demoChatbot : Project :=
  { id := "p-2", title := "AI Chatbot Assistant",
    description := "Chatbot using natural language processing",
    difficulty := "Advanced", duration := "4-5 weeks",
    technologies := some ["Python", "TensorFlow", "NLP", "Flask"],
    features := some ["Context-aware responses"] }

/-- Storage fixture with two students and two projects. -/
def projState : StorageState :=
  { students := [demoStudent, emptyStudent], internships := [demoFrontend, demoBackend],
    projects := [demoDashboard, demoChatbot] }

/-- C5: for a student id that does not resolve, both analyzers report the
explicit "Student not found" failure instead of defaulting. -/
theorem analyzeSkillGap_unknown_student_errors
    (r : Rand) (st : StorageState) (sid targetRole : String)
    (h : getStudent st sid = none) :
    analyzeSkillGap r st sid targetRole = Except.error "Student not found"
    ∧ memAnalyzeSkillGap st sid targetRole = Except.error "Student not found" := by
  constructor
  · simp [analyzeSkillGap, h]
  · simp [memAnalyzeSkillGap, h]

theorem analyzeSkillGap_unknown_student_errors_witness :
    getStudent demoState "nobody" = none
    ∧ (analyzeSkillGap rand0 demoState "nobody" "DevOps Engineer"
          = Except.error "Student not found"
      ∧ memAnalyzeSkillGap demoState "nobody" "DevOps Engineer"
          = Except.error "Student not found") :=
  ⟨by decide, analyzeSkillGap_unknown_student_errors rand0 demoState "nobody" "DevOps Engineer"
    (by decide)⟩

/-- C8: `findInternships` returns the empty list for an unknown student id,
and for an existing student whose skill list is empty (every internship then
scores 0 and is filtered out). -/
theorem findInternships_empty_on_unknown_or_no_skills
    (r : Rand) (st1 st2 : StorageState) (sid1 sid2 : String) (student : Student)
    (h1 : getStudent st1 sid1 = none)
    (h2 : getStudent st2 sid2 = some student)
    (h3 : student.skills.getD [] = []) :
    findInternships r st1 sid1 = [] ∧ findInternships r st2 sid2 = [] := by
  constructor
  · simp [findInternships, h1]
  · rw [findInternships_eq r st2 sid2 student h2]
    have hnil : (scoredInternships student st2.internships).filter
        (fun iw => decide (0 < iw.matchScore)) = [] := by
      rw [List.filter_eq_nil_iff]
      intro iw hmem
      obtain ⟨i, hi, rfl⟩ := List.mem_map.mp hmem
      simp [internshipMatchScore, h3, hasStr]
    rw [hnil]
    rfl

theorem findInternships_empty_on_unknown_or_no_skills_witness :
    getStudent projState "nobody" = none
    ∧ getStudent projState "stu-0" = some emptyStudent
    ∧ emptyStudent.skills.getD [] = []
    ∧ (findInternships rand0 projState "nobody" = []
        ∧ findInternships rand0 projState "stu-0" = []) :=
  ⟨by decide, by decide, by decide,
   findInternships_empty_on_unknown_or_no_skills rand0 projState projState "nobody" "stu-0"
     emptyStudent (by decide) (by decide) (by decide)⟩

/-- C9: in the exact-intersection scoring mode, `findInternships` injects no
randomness: its result does not depend on the ambient random oracle, so two
calls with unchanged student and catalog yield identical output. -/
theorem findInternships_deterministic (r1 r2 : Rand) (st : StorageState) (sid : String) :
    findInternships r1 st sid = findInternships r2 st sid := rfl

theorem mem_currentSkillNames {studentSkills required : List String} {skill : String} :
    skill ∈ currentSkillNames studentSkills required
      ↔ skill ∈ studentSkills ∧ skill ∈ required := by
  simp [currentSkillNames, List.mem_filter, mem_jsSetList, hasStr_eq_decide]

theorem mem_missingSkillNames {studentSkills required : List String} {skill : String} :
    skill ∈ missingSkillNames studentSkills required
      ↔ skill ∈ required ∧ skill ∉ studentSkills := by
  simp [missingSkillNames, List.mem_filter, mem_jsSetList, hasStr_eq_decide]

theorem map_name_buildCurrentEntries (prof : Nat → Nat) (k : Nat) (l : List String) :
    (buildCurrentEntries prof k l).map (fun e => e.name) = l := by
  induction l generalizing k with
  | nil => rfl
  | cons s rest ih => simp [buildCurrentEntries, ih]

theorem analyzeSkillGap_eq (r : Rand) (st : StorageState) (sid targetRole : String)
    (student : Student) (h : getStudent st sid = some student) :
    analyzeSkillGap r st sid targetRole
      = Except.ok
          { targetRole := targetRole
            currentSkills := buildCurrentEntries r.prof 0
              (currentSkillNames (student.skills.getD [])
                (requiredSkillsFor supabaseRoleSkillMaps targetRole))
            missingSkills := (missingSkillNames (student.skills.getD [])
                (requiredSkillsFor supabaseRoleSkillMaps targetRole)).map (fun skill =>
              { name := skill
                priority :=
                  if (missingSkillNames (student.skills.getD [])
                      (requiredSkillsFor supabaseRoleSkillMaps targetRole)).indexOf skill < 3
                  then "High" else "Medium"
                timeToLearn := "2-4 weeks" })
            learningPlanWeeks := buildPlanWeeks 0
              ((missingSkillNames (student.skills.getD [])
                (requiredSkillsFor supabaseRoleSkillMaps targetRole)).take 4) } := by
  simp [analyzeSkillGap, h]

theorem memAnalyzeSkillGap_eq (st : StorageState) (sid targetRole : String)
    (student : Student) (h : getStudent st sid = some student) :
    memAnalyzeSkillGap st sid targetRole
      = Except.ok
          { targetRole := targetRole
            currentSkills := (currentSkillNames (student.skills.getD [])
                (requiredSkillsFor memRoleSkillMaps targetRole)).map (fun skill =>
              { name := skill, level := "Intermediate", proficiency := 60 })
            missingSkills := (missingSkillNames (student.skills.getD [])
                (requiredSkillsFor memRoleSkillMaps targetRole)).map (fun skill =>
              { name := skill, priority := "High", timeToLearn := "2-4 weeks" })
            learningPlanWeeks :=
              [{ title := "Week 1-2: Core Concepts"
                 focus := jsOrStr ((missingSkillNames (student.skills.getD [])
                     (requiredSkillsFor memRoleSkillMaps targetRole)).get? 0) "Key Skill 1"
                 tasks := ["Learn basics of " ++ jsIdx (missingSkillNames (student.skills.getD [])
                             (requiredSkillsFor memRoleSkillMaps targetRole)) 0,
                           "Build a small project with " ++ jsIdx (missingSkillNames
                             (student.skills.getD [])
                             (requiredSkillsFor memRoleSkillMaps targetRole)) 0] },
               { title := "Week 3-4: Advanced Topics"
                 focus := jsOrStr ((missingSkillNames (student.skills.getD [])
                     (requiredSkillsFor memRoleSkillMaps targetRole)).get? 1) "Key Skill 2"
                 tasks := ["Deep dive into " ++ jsIdx (missingSkillNames (student.skills.getD [])
                             (requiredSkillsFor memRoleSkillMaps targetRole)) 1,
                           "Integrate " ++ jsIdx (missingSkillNames (student.skills.getD [])
                             (requiredSkillsFor memRoleSkillMaps targetRole)) 1
                             ++ " with other tech"] }] } := by
  simp [memAnalyzeSkillGap, h]

/-- C3: every required skill of the target role appears among the report's
current skills when the student has it and among the missing skills
otherwise, and never in both — for the Supabase analyzer and the in-memory
fallback alike; concretely, for a student knowing only Linux against the
fallback's DevOps requirement set, the current skills are exactly Linux and
the missing skills are the remaining four in table order. -/
theorem analyzeSkillGap_partitions_required_skills
    (r : Rand) (st : StorageState) (sid targetRole : String) (student : Student)
    (repS repM : SkillGapAnalysis)
    (hs : getStudent st sid = some student)
    (hok : analyzeSkillGap r st sid targetRole = Except.ok repS)
    (hokm : memAnalyzeSkillGap st sid targetRole = Except.ok repM) :
    (∀ skill ∈ requiredSkillsFor supabaseRoleSkillMaps targetRole,
        (skill ∈ student.skills.getD [] → skill ∈ repS.currentSkills.map (fun e => e.name))
      ∧ (skill ∉ student.skills.getD [] → skill ∈ repS.missingSkills.map (fun e => e.name)))
    ∧ (∀ skill, ¬(skill ∈ repS.currentSkills.map (fun e => e.name)
          ∧ skill ∈ repS.missingSkills.map (fun e => e.name)))
    ∧ (∀ skill ∈ requiredSkillsFor memRoleSkillMaps targetRole,
        (skill ∈ student.skills.getD [] → skill ∈ repM.currentSkills.map (fun e => e.name))
      ∧ (skill ∉ student.skills.getD [] → skill ∈ repM.missingSkills.map (fun e => e.name)))
    ∧ (∀ skill, ¬(skill ∈ repM.currentSkills.map (fun e => e.name)
          ∧ skill ∈ repM.missingSkills.map (fun e => e.name)))
    ∧ ((memAnalyzeSkillGap linuxState "stu-2" "DevOps Engineer").map
          (fun rep => (rep.currentSkills.map (fun e => e.name),
                       rep.missingSkills.map (fun e => e.name)))
        = Except.ok (["Linux"], ["Docker", "Kubernetes", "AWS", "CI/CD"])) := by
  rw [analyzeSkillGap_eq r st sid targetRole student hs] at hok
  rw [memAnalyzeSkillGap_eq st sid targetRole student hs] at hokm
  rw [Except.ok.injEq] at hok hokm
  subst hok
  subst hokm
  refine ⟨?_, ?_, ?_, ?_, by rfl⟩
  · intro skill hreq
    constructor
    · intro hhave
      simp [map_name_buildCurrentEntries, mem_currentSkillNames]
      exact ⟨hhave, hreq⟩
    · intro hmiss
      simp [List.map_map, Function.comp, mem_missingSkillNames]
      exact ⟨hreq, hmiss⟩
  · intro skill hboth
    obtain ⟨hcur, hmiss⟩ := hboth
    simp [map_name_buildCurrentEntries, mem_currentSkillNames] at hcur
    simp [List.map_map, Function.comp, mem_missingSkillNames] at hmiss
    exact hmiss.2 hcur.1
  · intro skill hreq
    constructor
    · intro hhave
      simp [List.map_map, Function.comp, mem_currentSkillNames]
      exact ⟨hhave, hreq⟩
    · intro hmiss
      simp [List.map_map, Function.comp, mem_missingSkillNames]
      exact ⟨hreq, hmiss⟩
  · intro skill hboth
    obtain ⟨hcur, hmiss⟩ := hboth
    simp [List.map_map, Function.comp, mem_currentSkillNames] at hcur
    simp [List.map_map, Function.comp, mem_missingSkillNames] at hmiss
    exact hmiss.2 hcur.1

theorem analyzeSkillGap_partitions_required_skills_witness :
    getStudent linuxState "stu-2" = some linuxStudent
    ∧ (∀ skill ∈ requiredSkillsFor supabaseRoleSkillMaps "DevOps Engineer",
        (skill ∈ linuxStudent.skills.getD []
            → skill ∈ (buildCurrentEntries rand0.prof 0
                (currentSkillNames (linuxStudent.skills.getD [])
                  (requiredSkillsFor supabaseRoleSkillMaps "DevOps Engineer"))).map
                (fun e => e.name))
      ∧ (skill ∉ linuxStudent.skills.getD []
            → skill ∈ ((missingSkillNames (linuxStudent.skills.getD [])
                (requiredSkillsFor supabaseRoleSkillMaps "DevOps Engineer")).map (fun skill =>
              ({ name := skill
                 priority :=
                   if (missingSkillNames (linuxStudent.skills.getD [])
                       (requiredSkillsFor supabaseRoleSkillMaps "DevOps Engineer")).indexOf
                       skill < 3
                   then "High" else "Medium"
                 timeToLearn := "2-4 weeks" } : MissingSkillEntry))).map (fun e => e.name))) :=
  ⟨by decide, by
    have h := analyzeSkillGap_partitions_required_skills rand0 linuxState "stu-2"
      "DevOps Engineer" linuxStudent _ _ (by decide)
      (analyzeSkillGap_eq rand0 linuxState "stu-2" "DevOps Engineer" linuxStudent (by decide))
      (memAnalyzeSkillGap_eq linuxState "stu-2" "DevOps Engineer" linuxStudent (by decide))
    exact h.1⟩

theorem map_proj_mk_none : ∀ l : List Project,
    (l.map (fun p => ({ proj := p, score := none } : RecommendedProject))).map
        (fun rp => rp.proj) = l
  | [] => rfl
  | p :: l => by
    simp only [List.map_cons]
    rw [map_proj_mk_none l]

theorem map_proj_scoredProjects (skills : List String) : ∀ l : List Project,
    (scoredProjects skills l).map (fun rp => rp.proj) = l
  | [] => rfl
  | p :: l => by
    have ih := map_proj_scoredProjects skills l
    simp only [scoredProjects, List.map_cons] at ih ⊢
    rw [ih]

/-- C4: for an unknown student id or an existing student with an empty skill
list, `getRecommendedProjects` returns a permutation of the full project
catalog — for every outcome of the randomness — and the order is genuinely
randomized: two outcomes of the random comparator produce different orders on
a concrete two-project catalog. -/
theorem getRecommendedProjects_shuffles_full_catalog
    (r : Rand) (st1 st2 : StorageState) (sid1 sid2 : String) (student : Student)
    (h1 : getStudent st1 sid1 = none)
    (h2 : getStudent st2 sid2 = some student)
    (h3 : student.skills.getD [] = []) :
    ((getRecommendedProjects r st1 sid1).map (fun rp => rp.proj)).Perm st1.projects
    ∧ ((getRecommendedProjects r st2 sid2).map (fun rp => rp.proj)).Perm st2.projects
    ∧ getRecommendedProjects { rand0 with cmpP := fun _ _ => -1 } projState "nobody"
        ≠ getRecommendedProjects { rand0 with cmpP := fun _ _ => 1 } projState "nobody" := by
  refine ⟨?_, ?_, by decide⟩
  · simp only [getRecommendedProjects, h1]
    rw [map_proj_mk_none]
    exact jsSortBy_perm _ _
  · simp only [getRecommendedProjects, h2, h3, List.isEmpty_nil, if_true]
    rw [map_proj_mk_none]
    exact jsSortBy_perm _ _

theorem getRecommendedProjects_shuffles_full_catalog_witness :
    getStudent projState "nobody" = none
    ∧ getStudent projState "stu-0" = some emptyStudent
    ∧ emptyStudent.skills.getD [] = []
    ∧ (((getRecommendedProjects rand0 projState "nobody").map (fun rp => rp.proj)).Perm
          projState.projects
      ∧ ((getRecommendedProjects rand0 projState "stu-0").map (fun rp => rp.proj)).Perm
          projState.projects
      ∧ getRecommendedProjects { rand0 with cmpP := fun _ _ => -1 } projState "nobody"
          ≠ getRecommendedProjects { rand0 with cmpP := fun _ _ => 1 } projState "nobody") :=
  ⟨by decide, by decide, by decide,
   getRecommendedProjects_shuffles_full_catalog rand0 projState projState "nobody" "stu-0"
     emptyStudent (by decide) (by decide) (by decide)⟩

theorem requiredSkillsFor_of_lookup_none (table : List (String × List String)) (targetRole : String)
    (h : table.lookup targetRole = none) :
    requiredSkillsFor table targetRole = requiredSkillsFor table "Full-Stack Developer" := by
  cases hfs : table.lookup "Full-Stack Developer" <;> simp [requiredSkillsFor, h, hfs]

/-- C6: a target role absent from the fixed role table does not error: the
analyzer silently uses the default "Full-Stack Developer" requirement list,
and (for identical randomness) the report is exactly the default role's
report with only the echoed `targetRole` field changed — for the Supabase
analyzer and the in-memory fallback. -/
theorem analyzeSkillGap_unknown_role_uses_default
    (r : Rand) (st : StorageState) (sid targetRole : String) (student : Student)
    (hs : getStudent st sid = some student)
    (hsup : supabaseRoleSkillMaps.lookup targetRole = none)
    (hmem : memRoleSkillMaps.lookup targetRole = none) :
    analyzeSkillGap r st sid targetRole
      = (analyzeSkillGap r st sid "Full-Stack Developer").map
          (fun rep => { rep with targetRole := targetRole })
    ∧ memAnalyzeSkillGap st sid targetRole
      = (memAnalyzeSkillGap st sid "Full-Stack Developer").map
          (fun rep => { rep with targetRole := targetRole }) := by
  constructor
  · rw [analyzeSkillGap_eq r st sid targetRole student hs,
      analyzeSkillGap_eq r st sid "Full-Stack Developer" student hs,
      requiredSkillsFor_of_lookup_none supabaseRoleSkillMaps targetRole hsup]
    rfl
  · rw [memAnalyzeSkillGap_eq st sid targetRole student hs,
      memAnalyzeSkillGap_eq st sid "Full-Stack Developer" student hs,
      requiredSkillsFor_of_lookup_none memRoleSkillMaps targetRole hmem]
    rfl

theorem analyzeSkillGap_unknown_role_uses_default_witness :
    getStudent demoState "stu-1" = some demoStudent
    ∧ supabaseRoleSkillMaps.lookup "Astronaut" = none
    ∧ memRoleSkillMaps.lookup "Astronaut" = none
    ∧ (analyzeSkillGap rand0 demoState "stu-1" "Astronaut"
        = (analyzeSkillGap rand0 demoState "stu-1" "Full-Stack Developer").map
            (fun rep => { rep with targetRole := "Astronaut" })
      ∧ memAnalyzeSkillGap demoState "stu-1" "Astronaut"
        = (memAnalyzeSkillGap demoState "stu-1" "Full-Stack Developer").map
            (fun rep => { rep with targetRole := "Astronaut" })) :=
  ⟨by decide, by decide, by decide,
   analyzeSkillGap_unknown_role_uses_default rand0 demoState "stu-1" "Astronaut" demoStudent
     (by decide) (by decide) (by decide)⟩

theorem getRecommendedProjects_eq (r : Rand) (st : StorageState) (sid : String)
    (student : Student) (h : getStudent st sid = some student)
    (hskills : student.skills.getD [] ≠ []) :
    getRecommendedProjects r st sid
      = jsSortBy (scoreCmp (fun rp => rp.score.getD 0))
          (scoredProjects (student.skills.getD []) st.projects) := by
  have hne : (student.skills.getD []).isEmpty = false := by
    simpa using hskills
  simp [getRecommendedProjects, h, hne]

/-- C7: for a student with a non-empty skill list, `getRecommendedProjects`
keeps every catalog project (zero scores included), annotates each with the
count of its technologies in the student's skill set, and sorts descending by
that score, ties preserving catalog order. -/
theorem getRecommendedProjects_scored_sorted_stable
    (r : Rand) (st : StorageState) (sid : String) (student : Student)
    (h : getStudent st sid = some student)
    (hskills : student.skills.getD [] ≠ []) :
    ((getRecommendedProjects r st sid).map (fun rp => rp.proj)).Perm st.projects
    ∧ (∀ rp ∈ getRecommendedProjects r st sid,
        rp.score = some (projectScore (student.skills.getD []) rp.proj))
    ∧ (getRecommendedProjects r st sid).Pairwise
        (fun a b => b.score.getD 0 ≤ a.score.getD 0)
    ∧ (∀ s : Nat,
        (getRecommendedProjects r st sid).filter (fun rp => rp.score.getD 0 == s)
          = (scoredProjects (student.skills.getD []) st.projects).filter
              (fun rp => rp.score.getD 0 == s)) := by
  rw [getRecommendedProjects_eq r st sid student h hskills]
  refine ⟨?_, ?_, jsSortBy_scoreCmp_sorted _ _, fun s => jsSortBy_scoreCmp_filter _ s _⟩
  · have hp := (jsSortBy_perm (scoreCmp (fun rp => rp.score.getD 0))
      (scoredProjects (student.skills.getD []) st.projects)).map (fun rp => rp.proj)
    rw [map_proj_scoredProjects] at hp
    exact hp
  · intro rp hmem
    have h1 := ((jsSortBy_perm _ _).mem_iff).mp hmem
    obtain ⟨p, hp, rfl⟩ := List.mem_map.mp h1
    rfl

theorem getRecommendedProjects_scored_sorted_stable_witness :
    getStudent projState "stu-1" = some demoStudent
    ∧ demoStudent.skills.getD [] ≠ []
    ∧ (((getRecommendedProjects rand0 projState "stu-1").map (fun rp => rp.proj)).Perm
          projState.projects
      ∧ (∀ rp ∈ getRecommendedProjects rand0 projState "stu-1",
          rp.score = some (projectScore (demoStudent.skills.getD []) rp.proj))
      ∧ (getRecommendedProjects rand0 projState "stu-1").Pairwise
          (fun a b => b.score.getD 0 ≤ a.score.getD 0)
      ∧ (∀ s : Nat,
          (getRecommendedProjects rand0 projState "stu-1").filter
              (fun rp => rp.score.getD 0 == s)
            = (scoredProjects (demoStudent.skills.getD []) projState.projects).filter
                (fun rp => rp.score.getD 0 == s))) :=
  ⟨by decide, by decide,
   getRecommendedProjects_scored_sorted_stable rand0 projState "stu-1" demoStudent
     (by decide) (by decide)⟩

theorem mem_append_duplicate {l : List String} {s x : String} (hs : s ∈ l) :
    x ∈ l ++ [s] ↔ x ∈ l := by
  simp only [List.mem_append, List.mem_singleton]
  constructor
  · rintro (h | rfl)
    · exact h
    · exact hs
  · exact Or.inl

theorem hasStr_append_duplicate (l : List String) (s : String) (hs : s ∈ l) (x : String) :
    hasStr (l ++ [s]) x = hasStr l x := by
  rw [hasStr_eq_decide, hasStr_eq_decide]
  exact decide_eq_decide.mpr (mem_append_duplicate hs)

theorem internshipMatchScore_duplicate (skills : List String) (s : String) (hs : s ∈ skills)
    (i : Internship) :
    internshipMatchScore (skills ++ [s]) i = internshipMatchScore skills i := by
  unfold internshipMatchScore
  congr 1
  apply List.filter_congr
  intro sk _
  exact hasStr_append_duplicate skills s hs sk

theorem projectScore_duplicate (skills : List String) (s : String) (hs : s ∈ skills)
    (p : Project) :
    projectScore (skills ++ [s]) p = projectScore skills p := by
  unfold projectScore
  congr 1
  apply List.filter_congr
  intro tech _
  exact hasStr_append_duplicate skills s hs tech

theorem scoredInternships_congr (s1 s2 : Student)
    (h : ∀ i, internshipMatchScore (s1.skills.getD []) i
        = internshipMatchScore (s2.skills.getD []) i) :
    ∀ catalog : List Internship, scoredInternships s1 catalog = scoredInternships s2 catalog := by
  intro catalog
  induction catalog with
  | nil => rfl
  | cons i l ih =>
    simp only [scoredInternships, List.map_cons] at ih ⊢
    rw [h i, ih]

theorem scoredProjects_congr (sk1 sk2 : List String)
    (h : ∀ p, projectScore sk1 p = projectScore sk2 p) :
    ∀ catalog : List Project, scoredProjects sk1 catalog = scoredProjects sk2 catalog := by
  intro catalog
  induction catalog with
  | nil => rfl
  | cons p l ih =>
    simp only [scoredProjects, List.map_cons] at ih ⊢
    rw [h p, ih]

/-- C10: appending a duplicate of a skill the student already has changes no
internship's matchScore and no project's score — both operations test set
membership, so `findInternships` and `getRecommendedProjects` return
identical output for the duplicated profile. -/
theorem scores_invariant_under_duplicate_skill
    (r : Rand) (st st2 : StorageState) (sid : String) (student student2 : Student)
    (skill : String)
    (hs : getStudent st sid = some student)
    (hdup : skill ∈ student.skills.getD [])
    (hs2 : getStudent st2 sid = some student2)
    (hskills2 : student2.skills = some (student.skills.getD [] ++ [skill]))
    (hint : st2.internships = st.internships)
    (hproj : st2.projects = st.projects) :
    (∀ i : Internship,
        internshipMatchScore (student.skills.getD [] ++ [skill]) i
          = internshipMatchScore (student.skills.getD []) i)
    ∧ (∀ p : Project,
        projectScore (student.skills.getD [] ++ [skill]) p
          = projectScore (student.skills.getD []) p)
    ∧ findInternships r st2 sid = findInternships r st sid
    ∧ getRecommendedProjects r st2 sid = getRecommendedProjects r st sid := by
  have hone : student2.skills.getD [] = student.skills.getD [] ++ [skill] := by
    rw [hskills2]
    rfl
  have hscorei : ∀ i, internshipMatchScore (student2.skills.getD []) i
      = internshipMatchScore (student.skills.getD []) i := by
    intro i
    rw [hone]
    exact internshipMatchScore_duplicate _ _ hdup i
  have hscorep : ∀ p, projectScore (student2.skills.getD []) p
      = projectScore (student.skills.getD []) p := by
    intro p
    rw [hone]
    exact projectScore_duplicate _ _ hdup p
  refine ⟨fun i => internshipMatchScore_duplicate _ _ hdup i,
          fun p => projectScore_duplicate _ _ hdup p, ?_, ?_⟩
  · rw [findInternships_eq r st2 sid student2 hs2, findInternships_eq r st sid student hs,
      hint, scoredInternships_congr student2 student hscorei]
  · have hne1 : student.skills.getD [] ≠ [] := by
      intro hnil
      rw [hnil] at hdup
      exact absurd hdup (List.not_mem_nil skill)
    have hne2 : student2.skills.getD [] ≠ [] := by
      rw [hone]
      simp
    rw [getRecommendedProjects_eq r st2 sid student2 hs2 hne2,
      getRecommendedProjects_eq r st sid student hs hne1, hproj, hone,
      scoredProjects_congr (student.skills.getD [] ++ [skill]) (student.skills.getD [])
        (fun p => projectScore_duplicate _ _ hdup p)]

/-- The duplicated-skill variant of `demoStudent`. -/
def dupStudent : Student :=
  { id := "stu-1", name := "Asha", email := "asha@example.com", year := 3,
    skills := some ["React", "JavaScript", "React"], interests := some ["Web Development"] }

/-- `projState` with the duplicated-skill student instead. -/
def dupState : StorageState :=
  { students := [dupStudent, emptyStudent], internships := [demoFrontend, demoBackend],
    projects := [demoDashboard, demoChatbot] }

theorem scores_invariant_under_duplicate_skill_witness :
    getStudent projState "stu-1" = some demoStudent
    ∧ "React" ∈ demoStudent.skills.getD []
    ∧ getStudent dupState "stu-1" = some dupStudent
    ∧ dupStudent.skills = some (demoStudent.skills.getD [] ++ ["React"])
    ∧ dupState.internships = projState.internships
    ∧ dupState.projects = projState.projects
    ∧ ((∀ i : Internship,
          internshipMatchScore (demoStudent.skills.getD [] ++ ["React"]) i
            = internshipMatchScore (demoStudent.skills.getD []) i)
      ∧ (∀ p : Project,
          projectScore (demoStudent.skills.getD [] ++ ["React"]) p
            = projectScore (demoStudent.skills.getD []) p)
      ∧ findInternships rand0 dupState "stu-1" = findInternships rand0 projState "stu-1"
      ∧ getRecommendedProjects rand0 dupState "stu-1"
          = getRecommendedProjects rand0 projState "stu-1") :=
  ⟨by decide, by decide, by decide, by decide, by decide, by decide,
   scores_invariant_under_duplicate_skill rand0 projState dupState "stu-1" demoStudent
     dupStudent "React" (by decide) (by decide) (by decide) (by decide) (by decide) (by decide)⟩

end StudentCopilot
